import Mathlib

/-!
Verification development for the p2p-fileshare repository.

Shallow embedding of the chunked encrypted transfer protocol:
the node's catalog and request dispatcher (src/p2p_node.py), the shared
cipher (src/file_share/crypto.py), the catalog scanners (src/p2p_node.py
and src/file_share/file_handler.py), the resume store
(src/file_share/resume_manager.py), and the client's chunked downloader
(src/p2p_client.py).

Modelling conventions:
- byte strings are `List Nat`;
- the `cryptography.fernet` library is modelled symbolically: PBKDF2 key
  derivation is an injective pairing of (salt, passphrase), a Fernet token
  records the encrypting key, the random IV drawn for that call, and the
  plaintext, and decryption returns the plaintext exactly when the keys
  match and fails (`none`, the library's InvalidToken) otherwise;
- base64 encoding on the wire is injective with a total inverse, so wire
  payloads are modelled by the tokens themselves;
- Python dicts with string keys are association lists (`dictGet`/`dictSet`);
- dynamic (JSON-derived) Python values are `PyValue`; operations that can
  raise in Python return `Except PyErr`;
- MD5 digests are modelled by an injective stand-in; no claim depends on
  digest values.
-/

/-- Chunk size fixed by both endpoints: 1024 * 1024 (p2p_node.py line 273,
p2p_client.py line 133). -/
def chunkSize : Nat := 1024 * 1024

/-- Python dict read (`d.get(k)` / `d[k]`) for string-keyed dicts
modelled as association lists. -/
def dictGet {β : Type} : List (String × β) → String → Option β
  | [], _ => none
  | (k, v) :: rest, key => if k = key then some v else dictGet rest key

/-- Python dict assignment `d[k] = v`: replaces in place, appends if new. -/
def dictSet {β : Type} : List (String × β) → String → β → List (String × β)
  | [], k, v => [(k, v)]
  | (k0, v0) :: rest, k, v =>
    if k0 = k then (k, v) :: rest else (k0, v0) :: dictSet rest k v

/-- A symmetric key as produced by PBKDF2HMAC over a fixed salt and the
configured passphrase. PBKDF2 is modelled as the injective pairing of its
salt and password arguments. -/
structure FernetKey where
  salt : String
  password : String
deriving DecidableEq

/-- A Fernet ciphertext token. Real Fernet tokens embed a fresh random IV
and an authentication tag; here the token records the key it was produced
under, the IV drawn for this call, and the plaintext. -/
structure FernetToken where
  key : FernetKey
  iv : Nat
  plaintext : List Nat
deriving DecidableEq

/-- Fernet.encrypt: authenticated encryption under `k` with the fresh
random IV `iv` drawn for this call. -/
def fernetEncrypt (k : FernetKey) (iv : Nat) (d : List Nat) : FernetToken :=
  ⟨k, iv, d⟩

/-- Fernet.decrypt: returns the plaintext exactly when the token was
produced under the same key; otherwise raises InvalidToken, modelled as
`none`. -/
def fernetDecrypt (k : FernetKey) (t : FernetToken) : Option (List Nat) :=
  if t.key = k then some t.plaintext else none

/-- PBKDF2HMAC(SHA256, length=32, iterations=100000) over a salt and a
passphrase, modelled injectively. -/
def pbkdf2Key (salt password : String) : FernetKey := ⟨salt, password⟩

/-- The node's fixed KDF salt, p2p_node.py line 90. -/
def nodeSalt : String := "p2p_fileshare_salt_"

/-- The client-side Crypto class's fixed KDF salt, crypto.py line 24. -/
def cryptoSalt : String := "p2p_file_share_salt"

/-- P2PNode._derive_key (p2p_node.py lines 87-98): derives the node's
Fernet key from the configured passphrase with the node's salt. -/
def P2PNode.deriveKey (password : String) : FernetKey := pbkdf2Key nodeSalt password

/-- Crypto.__init__ (crypto.py lines 10-32): rejects keys shorter than
8 characters (ValueError, modelled as `none`), otherwise derives the
client's Fernet key with the Crypto class's salt. -/
def Crypto.init (key : String) : Option FernetKey :=
  if key.length < 8 then none else some (pbkdf2Key cryptoSalt key)

/-- MD5 hex digest of a byte string, modelled by an injective stand-in;
no claim depends on concrete digest values. -/
def md5Hex (data : List Nat) : String :=
  String.intercalate "-" (data.map toString)

/-- A value of the node's available_files map: the dict built by
P2PNode._get_file_info (p2p_node.py lines 118-132). -/
structure FileEntry where
  size : Nat
  hash : String
  path : String
deriving DecidableEq

/-- One directory entry as seen by `share_dir.iterdir()` / `glob`:
its name, whether it is a regular file, and its current bytes. -/
structure DirEntry where
  name : String
  isFile : Bool
  content : List Nat
deriving DecidableEq

/-- P2PNode._get_file_info for one path: size from stat, MD5 of the bytes,
and the storage path (share directory root ++ name). -/
def getFileInfoOf (root : String) (e : DirEntry) : FileEntry :=
  ⟨e.content.length, md5Hex e.content, root ++ e.name⟩

/-- P2PNode.scan_shared_files (p2p_node.py lines 100-116): indexes every
regular file directly under the share directory; there is no filter on
hidden (dot-prefixed) names. -/
def scan_shared_files (root : String) (dir : List DirEntry) : List (String × FileEntry) :=
  dir.filterMap (fun e => if e.isFile then some (e.name, getFileInfoOf root e) else none)

/-- Python's name.startswith of a single dot: true exactly when the first
character is a dot. -/
def pyStartswithDot (s : String) : Bool :=
  match s.data with
  | [] => false
  | c :: _ => c = '.'

/-- FileHandler._scan_files (file_handler.py lines 26-38): indexes regular
files whose names do not start with a dot. This class is not used by
P2PNode. -/
def FileHandler.scan_files (root : String) (dir : List DirEntry) : List (String × FileEntry) :=
  dir.filterMap (fun e =>
    if e.isFile && !(pyStartswithDot e.name) then some (e.name, getFileInfoOf root e) else none)

/-- The node's state relevant to request handling: its Fernet key
(self.fernet), the available_files map, and the current disk contents
keyed by storage path (download_chunk re-reads the file from disk). -/
structure NodeState where
  key : FernetKey
  avail : List (String × FileEntry)
  disk : List (String × List Nat)
deriving DecidableEq

/-- A dynamically typed Python value decoded from JSON. Arrays are
modelled opaquely: only their type (unhashable, and list-repeatable
under `*`) is observable to the node's request handlers. -/
inductive PyValue where
  | pynone
  | pyint (n : Int)
  | pybool (b : Bool)
  | pystr (s : String)
  | pylist
deriving DecidableEq

/-- A Python exception as caught by `except Exception`. -/
inductive PyErr where
  | typeError (msg : String)
  | osError (msg : String)
  | fileNotFoundError (msg : String)
deriving DecidableEq

/-- str(e) for a caught exception. -/
def PyErr.message : PyErr → String
  | .typeError m => m
  | .osError m => m
  | .fileNotFoundError m => m

/-- Python string repetition s * n. -/
def pyStrRepeat (s : String) (n : Nat) : String :=
  String.join (List.replicate n s)

/-- The expression `chunk_index * chunk_size` under Python dynamic typing:
ints multiply, bools coerce to ints, strings and lists repeat, None raises
TypeError. -/
def pyMulChunkSize : PyValue → Except PyErr PyValue
  | .pyint n => .ok (.pyint (n * chunkSize))
  | .pybool b => .ok (.pyint ((if b then (1 : Int) else 0) * chunkSize))
  | .pystr s => .ok (.pystr (pyStrRepeat s chunkSize))
  | .pylist => .ok .pylist
  | .pynone => .error (.typeError "unsupported operand type for *: NoneType and int")

/-- `f.seek(offset)`: accepts a non-negative int, raises OSError on a
negative offset and TypeError on a non-int argument. -/
def pySeek : PyValue → Except PyErr Nat
  | .pyint n => if n < 0 then .error (.osError "[Errno 22] Invalid argument") else .ok n.toNat
  | .pybool b => .ok (if b then 1 else 0)
  | _ => .error (.typeError "argument should be integer, not the given type")

/-- `open(file_path, 'rb')`: returns the file bytes or raises
FileNotFoundError when the path is no longer on disk. -/
def pyOpen (disk : List (String × List Nat)) (path : String) : Except PyErr (List Nat) :=
  match dictGet disk path with
  | some c => .ok c
  | none => .error (.fileNotFoundError (String.append "[Errno 2] No such file or directory: " path))

/-- `f.seek(pos); f.read(len)` over in-memory bytes. -/
def fileRead (content : List Nat) (pos len : Nat) : List Nat :=
  (content.drop pos).take len

/-- A download_chunk response value (before JSON rendering): either the
success dict carrying the base64 Fernet token and the plaintext chunk
length, or an error dict's message. -/
inductive ChunkResponse where
  | success (chunk_data : FernetToken) (chunk_size : Nat)
  | error (message : String)
deriving DecidableEq

/-- The body of P2PNode.download_chunk (p2p_node.py lines 265-286), before
its enclosing try/except: membership test on available_files (raises
TypeError for an unhashable filename), path lookup, open, seek to
chunk_index * chunk_size, read up to chunk_size bytes, and either encrypt
the non-empty chunk or answer the Chunk-not-available error. -/
def download_chunk_body (node : NodeState) (iv : Nat) (filename chunk_index : PyValue) :
    Except PyErr ChunkResponse :=
  match filename with
  | .pylist => .error (.typeError "unhashable type: list")
  | .pystr s =>
    match dictGet node.avail s with
    | none => .ok (.error "File not found")
    | some entry =>
      match pyOpen node.disk entry.path with
      | .error e => .error e
      | .ok content =>
        match pyMulChunkSize chunk_index with
        | .error e => .error e
        | .ok offset =>
          match pySeek offset with
          | .error e => .error e
          | .ok pos =>
            let chunk := fileRead content pos chunkSize
            if chunk = [] then .ok (.error "Chunk not available")
            else .ok (.success (fernetEncrypt node.key iv chunk) chunk.length)
  | _ => .ok (.error "File not found")

/-- P2PNode.download_chunk (p2p_node.py lines 263-289): the body wrapped in
try/except Exception, converting any raised exception into an error
response with message str(e). -/
def download_chunk (node : NodeState) (iv : Nat) (filename chunk_index : PyValue) :
    ChunkResponse :=
  match download_chunk_body node iv filename chunk_index with
  | .ok r => r
  | .error e => .error e.message

/-- download_chunk invoked with a well-typed filename and chunk index, as
the client sends them. -/
def download_chunkN (node : NodeState) (iv : Nat) (filename : String) (chunk_index : Nat) :
    ChunkResponse :=
  download_chunk node iv (.pystr filename) (.pyint chunk_index)

/-- A value in a JSON response object. Encrypted payloads appear as the
base64 of a Fernet token; base64 is injective, so the token itself stands
for the wire string. -/
inductive RespField where
  | vstr (s : String)
  | vnat (n : Nat)
  | vtok (t : FernetToken)
  | vfiles (m : List (String × Nat × String))
  | vinfo (e : FileEntry)
deriving DecidableEq

/-- The literal response dicts built by download_chunk (p2p_node.py
lines 280-286). -/
def respDict : ChunkResponse → List (String × RespField)
  | .success t n => [("status", .vstr "success"), ("chunk_data", .vtok t), ("chunk_size", .vnat n)]
  | .error m => [("status", .vstr "error"), ("message", .vstr m)]

/-- The decrypted payload of a chunk response under a client key; `none`
for error responses or on decryption failure. -/
def respPlain (k : FernetKey) : ChunkResponse → Option (List Nat)
  | .success t _ => fernetDecrypt k t
  | .error _ => none

/-- The chunk_size field of a success response. -/
def respSize : ChunkResponse → Option Nat
  | .success _ n => some n
  | .error _ => none

/-- The status field of a chunk response. -/
def respStatus : ChunkResponse → String
  | .success _ _ => "success"
  | .error _ => "error"

/-- The dict comprehension in P2PNode.list_files (p2p_node.py lines
245-249): name, size and hash of every available file (paths withheld). -/
def listedFiles (node : NodeState) : List (String × Nat × String) :=
  node.avail.map (fun p => (p.1, p.2.size, p.2.hash))

/-- P2PNode.list_files (p2p_node.py lines 243-250). -/
def list_files (node : NodeState) : List (String × RespField) :=
  [("status", .vstr "success"), ("files", .vfiles (listedFiles node))]

/-- P2PNode.get_file_info (p2p_node.py lines 252-261). It has no
try/except of its own, so a TypeError from the membership test on an
unhashable filename propagates. -/
def get_file_info_resp (node : NodeState) (filename : PyValue) :
    Except PyErr (List (String × RespField)) :=
  match filename with
  | .pylist => .error (.typeError "unhashable type: list")
  | .pystr s =>
    match dictGet node.avail s with
    | some e => .ok [("status", .vstr "success"), ("file_info", .vinfo e)]
    | none => .ok [("status", .vstr "error"), ("message", .vstr "File not found")]
  | _ => .ok [("status", .vstr "error"), ("message", .vstr "File not found")]

/-- request.get(key): the value when present, else None. -/
def reqGet (req : List (String × PyValue)) (k : String) : PyValue :=
  (dictGet req k).getD .pynone

/-- P2PNode.process_request (p2p_node.py lines 227-241): dispatch on the
command field; unknown or missing commands answer the Unknown-command
error. -/
def process_request (node : NodeState) (iv : Nat) (req : List (String × PyValue)) :
    Except PyErr (List (String × RespField)) :=
  match reqGet req "command" with
  | .pystr "list_files" => .ok (list_files node)
  | .pystr "get_file_info" => get_file_info_resp node (reqGet req "filename")
  | .pystr "download_chunk" =>
    .ok (respDict (download_chunk node iv (reqGet req "filename") (reqGet req "chunk_index")))
  | _ => .ok [("status", .vstr "error"), ("message", .vstr "Unknown command")]

/-- P2PNode.handle_client (p2p_node.py lines 203-225): one incoming
message per loop iteration; `none` stands for undecodable JSON (answered
with the Invalid-JSON error, connection kept); a parsed request is
dispatched and its response sent, and the loop continues; an exception
escaping process_request reaches the outer handler, which closes the
connection. The index feeds the per-request IV stream. -/
def handle_client (node : NodeState) (ivs : Nat → Nat) :
    Nat → List (Option (List (String × PyValue))) → List (List (String × RespField))
  | _, [] => []
  | i, none :: rest =>
    [("status", .vstr "error"), ("message", .vstr "Invalid JSON")] :: handle_client node ivs (i + 1) rest
  | i, some req :: rest =>
    match process_request node (ivs i) req with
    | .ok r => r :: handle_client node ivs (i + 1) rest
    | .error _ => []

/-- The download_chunk request the client sends (p2p_client.py lines
145-149). -/
def chunkRequest (filename : String) (chunk_index : Nat) : List (String × PyValue) :=
  [("command", .pystr "download_chunk"), ("filename", .pystr filename),
   ("chunk_index", .pyint chunk_index)]

/-- The resume-handling prologue of P2PClient.download_file_chunked
(p2p_client.py lines 121-131): with resume enabled and the temp file
present, keep it and resume from its size when that size is strictly
less than the server-reported file size; otherwise unlink the temp file
and restart at 0. Returns the temp file's state after the prologue and
the existing_size variable. -/
def handleResume (resume : Bool) (temp : Option (List Nat)) (file_size : Nat) :
    Option (List Nat) × Nat :=
  match resume, temp with
  | true, some t => if t.length < file_size then (some t, t.length) else (none, 0)
  | _, _ => (temp, 0)

/-- The client-visible filesystem: the bytes at the temp ('.part') path
and at the final destination path, `none` when the file does not exist. -/
structure ClientFS where
  temp : Option (List Nat)
  final : Option (List Nat)
deriving DecidableEq

/-- One resume-store entry (resume_manager.py lines 46-53); the two
human-readable time strings are folded into the timestamp. -/
structure DLState where
  total_size : Nat
  downloaded : Nat
  temp_path : String
  active : Bool
  timestamp : Nat
deriving DecidableEq

/-- ResumeManager.register_download (resume_manager.py lines 44-54). -/
def register_download (states : List (String × DLState)) (filename : String)
    (total_size : Nat) (temp_path : String) (now : Nat) : List (String × DLState) :=
  dictSet states filename ⟨total_size, 0, temp_path, true, now⟩

/-- ResumeManager.update_progress (resume_manager.py lines 56-64):
updates the in-memory entry when present (disk persistence is throttled
and not modelled). -/
def update_progress (states : List (String × DLState)) (filename : String)
    (downloaded : Nat) : List (String × DLState) :=
  match dictGet states filename with
  | some st => dictSet states filename ⟨st.total_size, downloaded, st.temp_path, st.active, st.timestamp⟩
  | none => states

/-- ResumeManager.complete_download (resume_manager.py lines 66-70). -/
def complete_download (states : List (String × DLState)) (filename : String) :
    List (String × DLState) :=
  states.filter (fun p => ¬(p.1 = filename))

/-- Outcome of the client's chunk loop: the bytes now at the final
destination path, whether the loop ran to completion, and the chunk
indices that were requested. -/
structure LoopOut where
  content : List Nat
  completed : Bool
  requests : List Nat
deriving DecidableEq

/-- The chunk loop of P2PClient.download_file_chunked (p2p_client.py
lines 143-169): request each chunk in turn, abort on a non-success
response, decrypt with the client cipher (a decryption failure raises and
is caught by the function's except clause, aborting with partial data
kept), append the decrypted bytes to the open file. `fuel` is the number
of loop iterations that complete before the process is interrupted;
`acc` is the bytes written so far to the open (final-path) file. -/
def dlLoop (node : NodeState) (ck : FernetKey) (ivs : Nat → Nat) (filename : String)
    (total : Nat) : Nat → Nat → List Nat → LoopOut
  | 0, idx, acc => if total ≤ idx then ⟨acc, true, []⟩ else ⟨acc, false, []⟩
  | fuel + 1, idx, acc =>
    if total ≤ idx then ⟨acc, true, []⟩
    else
      match download_chunkN node (ivs idx) filename idx with
      | .error _ => ⟨acc, false, [idx]⟩
      | .success tok _ =>
        match fernetDecrypt ck tok with
        | none => ⟨acc, false, [idx]⟩
        | some chunk =>
          let r := dlLoop node ck ivs filename total fuel (idx + 1) (acc ++ chunk)
          ⟨r.content, r.completed, idx :: r.requests⟩

/-- total_chunks (p2p_client.py line 134). -/
def totalChunks (size : Nat) : Nat := (size + chunkSize - 1) / chunkSize

/-- The observable outcome of one download_file_chunked run: filesystem
state, the client's resume store, the returned value (the saved path on
success, None on failure or interruption), the chunk indices requested,
and the existing_size the run computed. -/
structure DLOut where
  fs : ClientFS
  rm : List (String × DLState)
  result : Option String
  requests : List Nat
  existing : Nat
deriving DecidableEq

/-- P2PClient.download_file_chunked (p2p_client.py lines 98-183).
Faithful to the source: the get_file_info failure path returns with
nothing touched; the resume prologue inspects and possibly unlinks the
temp path; the output file opened for writing is the FINAL destination
path, in 'wb' mode when existing_size is 0 and 'ab' otherwise (line 137);
every decrypted chunk is appended there; no rename happens at the end;
the client's ResumeManager is never consulted or updated. `ck` is the
client Crypto's Fernet key, `fuel` bounds the loop iterations that
complete before an interruption. -/
def download_file_chunked (node : NodeState) (ck : FernetKey) (resume : Bool)
    (filename : String) (fs : ClientFS) (rm : List (String × DLState))
    (ivs : Nat → Nat) (fuel : Nat) : DLOut :=
  match dictGet node.avail filename with
  | none => ⟨fs, rm, none, [], 0⟩
  | some entry =>
    let file_size := entry.size
    let hr := handleResume resume fs.temp file_size
    let existing := hr.2
    let startChunk := existing / chunkSize
    let f0 : List Nat := if existing = 0 then [] else fs.final.getD []
    let out := dlLoop node ck ivs filename (totalChunks file_size) fuel startChunk f0
    ⟨⟨hr.1, some out.content⟩, rm,
     if out.completed then some filename else none, out.requests, existing⟩

/-- The node serves `filename` with current bytes `c`: the catalog has an
entry whose recorded size matches and whose storage path holds `c` on
disk (the unmodified-file scenario of the claims). -/
def nodeServes (node : NodeState) (filename : String) (c : List Nat) : Prop :=
  ∃ e, dictGet node.avail filename = some e ∧ e.size = c.length ∧
    dictGet node.disk e.path = some c

/-- A node configured with passphrase password123 sharing the single
one-byte file a.txt. -/
def nodeA : NodeState :=
  ⟨P2PNode.deriveKey "password123",
   [("a.txt", ⟨1, md5Hex [65], "./shared/a.txt"⟩)],
   [("./shared/a.txt", [65])]⟩

/-- A 1 MiB + 1 byte file: exactly two chunks, the second of one byte. -/
def bigContent : List Nat := List.replicate (chunkSize + 1) 37

/-- A node sharing the two-chunk file big.bin. -/
def nodeBig : NodeState :=
  ⟨P2PNode.deriveKey "password123",
   [("big.bin", ⟨chunkSize + 1, "bighash", "./shared/big.bin"⟩)],
   [("./shared/big.bin", bigContent)]⟩

/-- A node whose catalog still lists ghost.txt although the file has
disappeared from disk. -/
def nodeGone : NodeState :=
  ⟨P2PNode.deriveKey "password123",
   [("ghost.txt", ⟨1, "h", "./shared/ghost.txt"⟩)],
   []⟩

/-- A share directory holding a hidden file and a regular file. -/
def hiddenDir : List DirEntry :=
  [⟨".secret", true, [1]⟩, ⟨"visible.txt", true, [2]⟩]

lemma download_chunkN_eval (node : NodeState) (iv : Nat) (fn : String) (idx : Nat)
    (e : FileEntry) (c : List Nat) (he : dictGet node.avail fn = some e)
    (hd : dictGet node.disk e.path = some c) :
    download_chunkN node iv fn idx =
      if fileRead c (idx * chunkSize) chunkSize = [] then .error "Chunk not available"
      else .success (fernetEncrypt node.key iv (fileRead c (idx * chunkSize) chunkSize))
        (fileRead c (idx * chunkSize) chunkSize).length := by
  have hmul : ((idx : Int) * (chunkSize : Nat) : Int) = ((idx * chunkSize : Nat) : Int) := by
    push_cast; ring
  have hnn : ¬(((idx * chunkSize : Nat) : Int) < 0) := not_lt.mpr (Int.natCast_nonneg _)
  simp only [download_chunkN, download_chunk, download_chunk_body, he, pyOpen, hd,
    pyMulChunkSize, pySeek, hmul, if_neg hnn, Int.toNat_natCast]
  by_cases hc : fileRead c (idx * chunkSize) chunkSize = [] <;> simp [hc]

lemma download_chunkN_serves (node : NodeState) (iv : Nat) (fn : String) (idx : Nat)
    (c : List Nat) (hs : nodeServes node fn c) :
    download_chunkN node iv fn idx =
      if fileRead c (idx * chunkSize) chunkSize = [] then .error "Chunk not available"
      else .success (fernetEncrypt node.key iv (fileRead c (idx * chunkSize) chunkSize))
        (fileRead c (idx * chunkSize) chunkSize).length := by
  obtain ⟨e, he, -, hd⟩ := hs
  exact download_chunkN_eval node iv fn idx e c he hd

lemma chunk_nonempty (c : List Nat) (idx : Nat) (h : idx * chunkSize < c.length) :
    fileRead c (idx * chunkSize) chunkSize ≠ [] := by
  have hpos : 0 < (fileRead c (idx * chunkSize) chunkSize).length := by
    simp only [fileRead, List.length_take, List.length_drop]
    have : 0 < chunkSize := by norm_num [chunkSize]
    omega
  exact List.ne_nil_of_length_pos hpos

lemma totalChunks_lt_mul (len idx : Nat) (h : idx < totalChunks len) :
    idx * chunkSize < len := by
  simp only [totalChunks, chunkSize] at h
  simp only [chunkSize]
  omega

lemma totalChunks_le_mul (len idx : Nat) (h : totalChunks len ≤ idx) :
    len ≤ idx * chunkSize := by
  simp only [totalChunks, chunkSize] at h
  simp only [chunkSize]
  omega

lemma dlLoop_complete (node : NodeState) (ck : FernetKey) (ivs : Nat → Nat) (fn : String)
    (c : List Nat) (hs : nodeServes node fn c) (hk : node.key = ck) :
    ∀ fuel idx acc, totalChunks c.length ≤ fuel + idx → acc = c.take (idx * chunkSize) →
      (dlLoop node ck ivs fn (totalChunks c.length) fuel idx acc).content = c ∧
      (dlLoop node ck ivs fn (totalChunks c.length) fuel idx acc).completed = true := by
  intro fuel
  induction fuel with
  | zero =>
    intro idx acc hfuel hacc
    have hle : totalChunks c.length ≤ idx := by omega
    have hacc2 : acc = c := by
      rw [hacc]
      exact List.take_of_length_le (totalChunks_le_mul c.length idx hle)
    simp [dlLoop, hle, hacc2]
  | succ fuel ih =>
    intro idx acc hfuel hacc
    by_cases hle : totalChunks c.length ≤ idx
    · have hacc2 : acc = c := by
        rw [hacc]
        exact List.take_of_length_le (totalChunks_le_mul c.length idx hle)
      simp [dlLoop, hle, hacc2]
    · have hlt : idx < totalChunks c.length := by omega
      have hread : idx * chunkSize < c.length := totalChunks_lt_mul c.length idx hlt
      have hne := chunk_nonempty c idx hread
      have hresp := download_chunkN_serves node (ivs idx) fn idx c hs
      rw [if_neg hne] at hresp
      have hdec : fernetDecrypt ck (fernetEncrypt node.key (ivs idx)
          (fileRead c (idx * chunkSize) chunkSize)) =
          some (fileRead c (idx * chunkSize) chunkSize) := by
        simp [fernetDecrypt, fernetEncrypt, hk]
      have hacc2 : acc ++ fileRead c (idx * chunkSize) chunkSize =
          c.take ((idx + 1) * chunkSize) := by
        rw [hacc, Nat.succ_mul, List.take_add]
        rfl
      have hrec := ih (idx + 1) (acc ++ fileRead c (idx * chunkSize) chunkSize)
        (by omega) hacc2
      simp only [dlLoop, if_neg hle, hresp, hdec]
      exact hrec

lemma handleResume_none (resume : Bool) (s : Nat) :
    handleResume resume none s = (none, 0) := by
  cases resume <;> rfl

lemma download_temp_none (node : NodeState) (ck : FernetKey) (resume : Bool)
    (fn : String) (f : Option (List Nat)) (rm : List (String × DLState))
    (ivs : Nat → Nat) (fuel : Nat) :
    (download_file_chunked node ck resume fn ⟨none, f⟩ rm ivs fuel).fs.temp = none := by
  unfold download_file_chunked
  cases h : dictGet node.avail fn with
  | none => rfl
  | some e => simp [handleResume_none]

lemma download_full (node : NodeState) (ck : FernetKey) (fn : String) (c : List Nat)
    (f : Option (List Nat)) (rm : List (String × DLState)) (ivs : Nat → Nat) (fuel : Nat)
    (hs : nodeServes node fn c) (hk : node.key = ck)
    (hfuel : totalChunks c.length ≤ fuel) :
    (download_file_chunked node ck true fn ⟨none, f⟩ rm ivs fuel).fs.final = some c ∧
    (download_file_chunked node ck true fn ⟨none, f⟩ rm ivs fuel).result = some fn := by
  obtain ⟨e, he, hsize, hd⟩ := hs
  have hloop := dlLoop_complete node ck ivs fn c ⟨e, he, hsize, hd⟩ hk fuel 0 []
    (by omega) (by simp)
  unfold download_file_chunked
  rw [he]
  simp only [handleResume_none, Nat.zero_div, if_pos rfl, hsize]
  simp [hloop.1, hloop.2]

lemma dlLoop_mismatch (node : NodeState) (ck : FernetKey) (ivs : Nat → Nat)
    (fn : String) (c : List Nat) (fuel : Nat)
    (hs : nodeServes node fn c) (hk : node.key ≠ ck) :
    (dlLoop node ck ivs fn (totalChunks c.length) fuel 0 []).content = [] := by
  by_cases h0 : totalChunks c.length ≤ 0
  · cases fuel <;> simp [dlLoop, h0]
  · have hlt : 0 < totalChunks c.length := by omega
    have hread : 0 * chunkSize < c.length := totalChunks_lt_mul c.length 0 hlt
    have hne := chunk_nonempty c 0 hread
    have hresp := download_chunkN_serves node (ivs 0) fn 0 c hs
    rw [if_neg hne] at hresp
    have hdec : fernetDecrypt ck (fernetEncrypt node.key (ivs 0)
        (fileRead c (0 * chunkSize) chunkSize)) = none := by
      simp [fernetDecrypt, fernetEncrypt, hk]
    simp only [Nat.zero_mul] at hresp hdec
    cases fuel with
    | zero => simp [dlLoop, h0]
    | succ fuel => simp [dlLoop, h0, hresp, hdec]

lemma download_mismatch (node : NodeState) (ck : FernetKey) (fn : String) (c : List Nat)
    (f : Option (List Nat)) (rm : List (String × DLState)) (ivs : Nat → Nat) (fuel : Nat)
    (hs : nodeServes node fn c) (hk : node.key ≠ ck) :
    (download_file_chunked node ck true fn ⟨none, f⟩ rm ivs fuel).fs.final = some [] := by
  obtain ⟨e, he, hsize, hd⟩ := hs
  have hloop := dlLoop_mismatch node ck ivs fn c fuel ⟨e, he, hsize, hd⟩ hk
  unfold download_file_chunked
  rw [he]
  simp only [handleResume_none, Nat.zero_div, if_pos rfl, hsize]
  simp [hloop]

/-- C1: the claim says that downloading every chunk and decrypting with
the client-side cipher built from the same passphrase reproduces the
file. On the code it cannot: the node derives its Fernet key with salt
p2p_fileshare_salt_ while the client Crypto uses salt p2p_file_share_salt,
so the two keys differ for every passphrase and the client decryption of
every served chunk raises InvalidToken. Evaluated at the failing input:
passphrase password123, one-byte file a.txt; the node serves the whole
file as chunk 0, the client cipher fails to decrypt it, and the full
download run fails. -/
theorem c1_client_cannot_decrypt_node_chunks :
    Crypto.init "password123" = some (pbkdf2Key cryptoSalt "password123") ∧
    download_chunkN nodeA 0 "a.txt" 0 = .success (fernetEncrypt nodeA.key 0 [65]) 1 ∧
    respPlain (pbkdf2Key cryptoSalt "password123") (download_chunkN nodeA 0 "a.txt" 0) = none ∧
    (download_file_chunked nodeA (pbkdf2Key cryptoSalt "password123") true "a.txt"
      ⟨none, none⟩ [] (fun _ => 0) 9).result = none := by
  decide

/-- C3 counterexample: the claim says two download_chunk requests for the
same (filename, chunk_index) on an unchanged file return identical
chunk_data. Fernet encryption draws a fresh random IV per call, so two
requests whose IV draws differ return different chunk_data payloads. -/
theorem c3_chunk_data_not_identical :
    download_chunkN nodeA 0 "a.txt" 0 ≠ download_chunkN nodeA 1 "a.txt" 0 := by
  decide

/-- C3 amended: two download_chunk requests with the same
(filename, chunk_index) on an unchanged file return responses with the
same status and chunk_size whose payloads decrypt, under the node's key,
to the same plaintext; the raw chunk_data bytes differ in general because
encryption is randomized. -/
theorem c3_same_plaintext_and_size (node : NodeState) (fn : String) (ci iv1 iv2 : Nat) :
    respPlain node.key (download_chunkN node iv1 fn ci) =
      respPlain node.key (download_chunkN node iv2 fn ci) ∧
    respSize (download_chunkN node iv1 fn ci) = respSize (download_chunkN node iv2 fn ci) ∧
    respStatus (download_chunkN node iv1 fn ci) =
      respStatus (download_chunkN node iv2 fn ci) := by
  have hmul : ((ci : Int) * (chunkSize : Nat) : Int) = ((ci * chunkSize : Nat) : Int) := by
    push_cast; ring
  have hnn : ¬(((ci * chunkSize : Nat) : Int) < 0) := not_lt.mpr (Int.natCast_nonneg _)
  unfold download_chunkN download_chunk download_chunk_body
  simp only [pyMulChunkSize, pySeek, hmul, if_neg hnn, Int.toNat_natCast]
  cases h : dictGet node.avail fn with
  | none => simp [respPlain, respSize, respStatus]
  | some e =>
    cases hopen : pyOpen node.disk e.path with
    | error e2 => simp [hopen, respPlain, respSize, respStatus]
    | ok content =>
      by_cases hc : fileRead content (ci * chunkSize) chunkSize = [] <;>
        simp [hopen, hc, respPlain, respSize, respStatus, fernetDecrypt, fernetEncrypt]

/-- C5 counterexample: the claim says a temp file whose size equals the
server-reported size is kept and resumed from. On the code the resume
branch requires existing_size strictly less than file_size, so at
equality (temp of 1 byte, server file of 1 byte) the temp file is
unlinked and the download restarts at byte 0. -/
theorem c5_equal_size_temp_discarded :
    (download_file_chunked nodeA nodeA.key true "a.txt" ⟨some [5], none⟩ []
      (fun _ => 0) 3).fs.temp = none ∧
    (download_file_chunked nodeA nodeA.key true "a.txt" ⟨some [5], none⟩ []
      (fun _ => 0) 3).existing = 0 ∧
    ([5] : List Nat).length = 1 := by
  decide

/-- C5 amended: with resume enabled and the temp file present, the
download resumes from the temp file's size (temp preserved) exactly when
that size is strictly less than the server-reported size; when it is
greater than OR EQUAL, the temp file is discarded and the download
restarts at byte 0. -/
theorem c5_resume_boundary (node : NodeState) (ck : FernetKey) (fn : String)
    (e : FileEntry) (t : List Nat) (f : Option (List Nat))
    (rm : List (String × DLState)) (ivs : Nat → Nat) (fuel : Nat)
    (he : dictGet node.avail fn = some e) :
    (t.length < e.size →
      (download_file_chunked node ck true fn ⟨some t, f⟩ rm ivs fuel).fs.temp = some t ∧
      (download_file_chunked node ck true fn ⟨some t, f⟩ rm ivs fuel).existing = t.length) ∧
    (e.size ≤ t.length →
      (download_file_chunked node ck true fn ⟨some t, f⟩ rm ivs fuel).fs.temp = none ∧
      (download_file_chunked node ck true fn ⟨some t, f⟩ rm ivs fuel).existing = 0) := by
  unfold download_file_chunked
  rw [he]
  constructor <;> intro h
  · simp [handleResume, h]
  · simp [handleResume, Nat.not_lt.mpr h]

/-- C5 amended, witnessed at a strict-resume instance: a 1-byte temp
against the two-chunk file big.bin is preserved and existing_size is 1. -/
theorem c5_resume_boundary_witness :
    (download_file_chunked nodeBig nodeBig.key true "big.bin" ⟨some [5], none⟩ []
      (fun _ => 0) 0).fs.temp = some [5] ∧
    (download_file_chunked nodeBig nodeBig.key true "big.bin" ⟨some [5], none⟩ []
      (fun _ => 0) 0).existing = 1 :=
  (c5_resume_boundary nodeBig nodeBig.key "big.bin"
    ⟨chunkSize + 1, "bighash", "./shared/big.bin"⟩ [5] none [] (fun _ => 0) 0
    (by decide)).1 (by decide)

/-- C6: the claim says the Resume Store registers an active entry when the
download starts, updates it after every chunk and removes it on
completion. The code's download_file_chunked never calls
register_download, update_progress or complete_download: the client's
resume-store state is returned exactly as it was passed in, on every
path, for every input. -/
theorem c6_resume_store_untouched (node : NodeState) (ck : FernetKey) (resume : Bool)
    (fn : String) (fs : ClientFS) (rm : List (String × DLState)) (ivs : Nat → Nat)
    (fuel : Nat) :
    (download_file_chunked node ck resume fn fs rm ivs fuel).rm = rm := by
  unfold download_file_chunked
  cases h : dictGet node.avail fn <;> rfl

/-- C7: a Crypto instance built from a passphrase of valid length
round-trips every plaintext, and a Crypto instance built from any
different passphrase fails to decrypt that ciphertext (InvalidToken,
surfaced as Fernet's decryption error) instead of returning data. -/
theorem c7_crypto_roundtrip_and_wrong_key (k1 k2 : String) (p : List Nat) (iv : Nat)
    (c1 c2 : FernetKey) (h1 : Crypto.init k1 = some c1) (h2 : Crypto.init k2 = some c2)
    (hne : k1 ≠ k2) :
    fernetDecrypt c1 (fernetEncrypt c1 iv p) = some p ∧
    fernetDecrypt c2 (fernetEncrypt c1 iv p) = none := by
  unfold Crypto.init at h1 h2
  split at h1
  · exact absurd h1 (by simp)
  · split at h2
    · exact absurd h2 (by simp)
    · injection h1 with h1
      injection h2 with h2
      subst h1
      subst h2
      refine ⟨by simp [fernetDecrypt, fernetEncrypt], ?_⟩
      simp only [fernetDecrypt, fernetEncrypt, pbkdf2Key]
      rw [if_neg]
      simp only [FernetKey.mk.injEq, not_and]
      exact fun _ h => hne h

/-- C7 witnessed at passphrases password1 and password2 on plaintext
[1, 2, 3]. -/
theorem c7_crypto_witness :
    fernetDecrypt (pbkdf2Key cryptoSalt "password1")
      (fernetEncrypt (pbkdf2Key cryptoSalt "password1") 0 [1, 2, 3]) = some [1, 2, 3] ∧
    fernetDecrypt (pbkdf2Key cryptoSalt "password2")
      (fernetEncrypt (pbkdf2Key cryptoSalt "password1") 0 [1, 2, 3]) = none :=
  c7_crypto_roundtrip_and_wrong_key "password1" "password2" [1, 2, 3] 0
    (pbkdf2Key cryptoSalt "password1") (pbkdf2Key cryptoSalt "password2")
    (by decide) (by decide) (by decide)

/-- C2: interrupting a download after any k chunk writes and running
download again produces a final file identical to an uninterrupted
download. This holds on the code, but only because the interrupted run
never creates the '.part' temp file (chunks go to the final path), so
the second run finds no temp file and re-downloads everything from
byte 0 into a truncated file. The equality of outcomes holds for every
interruption point k and every per-request IV draw; when the client's
key matches the node's, the common outcome is the file's exact bytes. -/
theorem c2_resume_reproduces_file (node : NodeState) (ck : FernetKey) (fn : String)
    (c : List Nat) (rm : List (String × DLState)) (ivs1 ivs2 ivs3 : Nat → Nat)
    (k fuel2 fuel3 : Nat) (hs : nodeServes node fn c)
    (h2 : totalChunks c.length ≤ fuel2) (h3 : totalChunks c.length ≤ fuel3) :
    (download_file_chunked node ck true fn
        (download_file_chunked node ck true fn ⟨none, none⟩ rm ivs1 k).fs
        (download_file_chunked node ck true fn ⟨none, none⟩ rm ivs1 k).rm
        ivs2 fuel2).fs.final =
      (download_file_chunked node ck true fn ⟨none, none⟩ rm ivs3 fuel3).fs.final ∧
    (node.key = ck →
      (download_file_chunked node ck true fn ⟨none, none⟩ rm ivs3 fuel3).fs.final = some c) := by
  have ht : (download_file_chunked node ck true fn ⟨none, none⟩ rm ivs1 k).fs.temp = none :=
    download_temp_none node ck true fn none rm ivs1 k
  have hfs : (download_file_chunked node ck true fn ⟨none, none⟩ rm ivs1 k).fs =
      ⟨none, (download_file_chunked node ck true fn ⟨none, none⟩ rm ivs1 k).fs.final⟩ := by
    conv_lhs => rw [show (download_file_chunked node ck true fn ⟨none, none⟩ rm ivs1 k).fs =
      (⟨(download_file_chunked node ck true fn ⟨none, none⟩ rm ivs1 k).fs.temp,
        (download_file_chunked node ck true fn ⟨none, none⟩ rm ivs1 k).fs.final⟩ : ClientFS) from rfl]
    rw [ht]
  rw [hfs]
  by_cases hk : node.key = ck
  · have ha := download_full node ck fn c
      (download_file_chunked node ck true fn ⟨none, none⟩ rm ivs1 k).fs.final
      (download_file_chunked node ck true fn ⟨none, none⟩ rm ivs1 k).rm ivs2 fuel2 hs hk h2
    have hb := download_full node ck fn c none rm ivs3 fuel3 hs hk h3
    exact ⟨ha.1.trans hb.1.symm, fun _ => hb.1⟩
  · have ha := download_mismatch node ck fn c
      (download_file_chunked node ck true fn ⟨none, none⟩ rm ivs1 k).fs.final
      (download_file_chunked node ck true fn ⟨none, none⟩ rm ivs1 k).rm ivs2 fuel2 hs hk
    have hb := download_mismatch node ck fn c none rm ivs3 fuel3 hs hk
    exact ⟨ha.trans hb.symm, fun hkk => absurd hkk hk⟩

/-- C2 witnessed at the one-byte file a.txt with matching keys, an
interruption after 0 chunks, and fresh IVs in the second run. -/
theorem c2_resume_witness :
    (download_file_chunked nodeA nodeA.key true "a.txt"
        (download_file_chunked nodeA nodeA.key true "a.txt" ⟨none, none⟩ [] (fun _ => 0) 0).fs
        (download_file_chunked nodeA nodeA.key true "a.txt" ⟨none, none⟩ [] (fun _ => 0) 0).rm
        (fun _ => 1) 2).fs.final = some [65] :=
  ((c2_resume_reproduces_file nodeA nodeA.key "a.txt" [65] [] (fun _ => 0) (fun _ => 1)
      (fun _ => 2) 0 2 2
      ⟨⟨1, md5Hex [65], "./shared/a.txt"⟩, by decide, by decide, by decide⟩
      (by decide) (by decide)).1).trans
    ((c2_resume_reproduces_file nodeA nodeA.key "a.txt" [65] [] (fun _ => 0) (fun _ => 1)
      (fun _ => 2) 0 2 2
      ⟨⟨1, md5Hex [65], "./shared/a.txt"⟩, by decide, by decide, by decide⟩
      (by decide) (by decide)).2 rfl)

lemma download_first_chunk_only (node : NodeState) (ck : FernetKey) (fn : String)
    (c : List Nat) (rm : List (String × DLState)) (ivs : Nat → Nat)
    (hs : nodeServes node fn c) (hk : node.key = ck) (h2 : 2 ≤ totalChunks c.length) :
    (download_file_chunked node ck true fn ⟨none, none⟩ rm ivs 1).fs =
      ⟨none, some (fileRead c 0 chunkSize)⟩ ∧
    (download_file_chunked node ck true fn ⟨none, none⟩ rm ivs 1).result = none := by
  obtain ⟨e, he, hsize, hd⟩ := hs
  have hlt0 : (0 : Nat) < totalChunks c.length := by omega
  have hread := totalChunks_lt_mul c.length 0 hlt0
  have hne := chunk_nonempty c 0 hread
  have hresp := download_chunkN_eval node (ivs 0) fn 0 e c he hd
  rw [if_neg hne] at hresp
  have hdec : fernetDecrypt ck (fernetEncrypt node.key (ivs 0)
      (fileRead c (0 * chunkSize) chunkSize)) =
      some (fileRead c (0 * chunkSize) chunkSize) := by
    simp [fernetDecrypt, fernetEncrypt, hk]
  simp only [Nat.zero_mul] at hresp hdec
  have hn0 : ¬(totalChunks c.length ≤ 0) := by omega
  have hn1 : ¬(totalChunks c.length ≤ 1) := by omega
  unfold download_file_chunked
  rw [he]
  simp only [handleResume_none, Nat.zero_div, hsize]
  simp [dlLoop, hn0, hn1, hresp, hdec]

/-- C4: the claim says every decrypted chunk is appended to the '.part'
temp file and only a successful final chunk renames it to the
destination; nothing is written at the final path before completion. The
code opens the FINAL destination path for writing (p2p_client.py line
137) and appends every chunk there, and no rename exists. Evaluated on
the two-chunk file big.bin interrupted after its first chunk: the first
mebibyte of plaintext sits at the final destination path, the temp path
was never created, and the download did not complete. -/
theorem c4_chunks_written_to_final_path :
    (download_file_chunked nodeBig nodeBig.key true "big.bin" ⟨none, none⟩ []
      (fun _ => 0) 1).fs = ⟨none, some (List.replicate chunkSize 37)⟩ ∧
    (download_file_chunked nodeBig nodeBig.key true "big.bin" ⟨none, none⟩ []
      (fun _ => 0) 1).result = none := by
  have hserves : nodeServes nodeBig "big.bin" bigContent :=
    ⟨⟨chunkSize + 1, "bighash", "./shared/big.bin"⟩,
     by simp [nodeBig, dictGet],
     by simp [bigContent],
     by simp [nodeBig, dictGet]⟩
  have h2 : 2 ≤ totalChunks bigContent.length := by
    have h : bigContent.length = chunkSize + 1 := by simp [bigContent]
    rw [h]
    simp only [totalChunks, chunkSize]
    decide
  have hfc := download_first_chunk_only nodeBig nodeBig.key "big.bin" bigContent []
    (fun _ => 0) hserves rfl h2
  have hchunk : fileRead bigContent 0 chunkSize = List.replicate chunkSize 37 := by
    simp [fileRead, bigContent, List.take_replicate,
      Nat.min_eq_left (Nat.le_succ chunkSize)]
  rw [hchunk] at hfc
  exact hfc

/-- C8: a download_chunk request whose chunk_index is at or beyond the
file's chunk count seeks past end of file, reads zero bytes and is
answered with the Chunk-not-available error dict; no exception escapes
(download_chunk is total over its inputs) and the connection handler
keeps serving subsequent requests on the same connection. -/
theorem c8_out_of_range_chunk_error (node : NodeState) (fn : String) (e : FileEntry)
    (c : List Nat) (ci : Nat) (ivs : Nat → Nat)
    (he : dictGet node.avail fn = some e) (hd : dictGet node.disk e.path = some c)
    (hci : c.length ≤ ci * chunkSize) :
    download_chunkN node (ivs 0) fn ci = .error "Chunk not available" ∧
    handle_client node ivs 0
        [some (chunkRequest fn ci), some [("command", .pystr "list_files")]] =
      [respDict (.error "Chunk not available"), list_files node] := by
  have hempty : fileRead c (ci * chunkSize) chunkSize = [] := by
    simp [fileRead, List.drop_eq_nil_of_le hci]
  have h1 : download_chunkN node (ivs 0) fn ci = .error "Chunk not available" := by
    rw [download_chunkN_eval node (ivs 0) fn ci e c he hd, if_pos hempty]
  refine ⟨h1, ?_⟩
  have hcmd : reqGet (chunkRequest fn ci) "command" = .pystr "download_chunk" := by
    simp [chunkRequest, reqGet, dictGet]
  have hfn : reqGet (chunkRequest fn ci) "filename" = .pystr fn := by
    simp [chunkRequest, reqGet, dictGet]
  have hcix : reqGet (chunkRequest fn ci) "chunk_index" = .pyint ci := by
    simp [chunkRequest, reqGet, dictGet]
  have h1' : download_chunk node (ivs 0) (.pystr fn) (.pyint ci) =
      .error "Chunk not available" := h1
  simp only [handle_client, process_request, hcmd, hfn, hcix, h1']
  rfl

/-- C8 witnessed at chunk index 999 of the one-chunk file a.txt, followed
by a list_files request on the same connection. -/
theorem c8_out_of_range_witness :
    download_chunkN nodeA 0 "a.txt" 999 = .error "Chunk not available" ∧
    handle_client nodeA (fun _ => 0) 0
        [some (chunkRequest "a.txt" 999), some [("command", .pystr "list_files")]] =
      [respDict (.error "Chunk not available"), list_files nodeA] :=
  c8_out_of_range_chunk_error nodeA "a.txt" ⟨1, md5Hex [65], "./shared/a.txt"⟩ [65] 999
    (fun _ => 0) (by decide) (by decide) (by decide)

lemma scan_names (root : String) (dir : List DirEntry) :
    (scan_shared_files root dir).map Prod.fst =
      (dir.filter (fun e => e.isFile)).map DirEntry.name := by
  induction dir with
  | nil => rfl
  | cons e rest ih =>
    simp only [scan_shared_files, List.filterMap_cons] at ih ⊢
    by_cases hf : e.isFile <;> simp [hf, List.filter_cons, ih]

lemma fileHandler_scan_no_hidden (root n : String) (hn : pyStartswithDot n = true)
    (dir : List DirEntry) : dictGet (FileHandler.scan_files root dir) n = none := by
  induction dir with
  | nil => rfl
  | cons e rest ih =>
    simp only [FileHandler.scan_files, List.filterMap_cons] at ih ⊢
    simp only [Bool.and_eq_true, Bool.not_eq_true'] at ih ⊢
    by_cases hf1 : e.isFile
    · by_cases hf2 : pyStartswithDot e.name
      · simp [hf1, hf2, ih]
      · have hne : e.name ≠ n := fun hEq => hf2 (by rw [hEq]; exact hn)
        simp [hf1, hf2, dictGet, hne, ih]
    · simp [hf1, ih]

/-- C9 counterexample: the claim says hidden files never appear in the
catalog map or in list_files responses. The node's scan_shared_files has
no hidden-file filter, so a share directory containing .secret yields a
catalog map, and hence a list_files files map, containing .secret. -/
theorem c9_hidden_file_listed :
    (dictGet (scan_shared_files "./shared/" hiddenDir) ".secret").isSome = true ∧
    (dictGet (listedFiles ⟨P2PNode.deriveKey "password123",
        scan_shared_files "./shared/" hiddenDir, []⟩) ".secret").isSome = true := by
  decide

/-- C9 amended: the node's catalog scan indexes exactly the regular files
directly under the share directory, hidden ones included, so hidden
files can appear in list_files responses; only the separate
FileHandler scan (not used by the node) skips names starting with a
dot. -/
theorem c9_scan_amended (root : String) (dir : List DirEntry) :
    (scan_shared_files root dir).map Prod.fst =
      (dir.filter (fun e => e.isFile)).map DirEntry.name ∧
    (∀ n, pyStartswithDot n = true → dictGet (FileHandler.scan_files root dir) n = none) :=
  ⟨scan_names root dir, fun n hn => fileHandler_scan_no_hidden root n hn dir⟩

/-- C9 amended, witnessed on the concrete directory holding .secret and
visible.txt. -/
theorem c9_scan_amended_witness :
    (scan_shared_files "./shared/" hiddenDir).map Prod.fst = [".secret", "visible.txt"] ∧
    dictGet (FileHandler.scan_files "./shared/" hiddenDir) ".hidden" = none :=
  ⟨((c9_scan_amended "./shared/" hiddenDir).1).trans (by decide),
   (c9_scan_amended "./shared/" hiddenDir).2 ".hidden" (by decide)⟩

/-- C10: whatever PyValues arrive as filename and chunk_index (absent
arguments are passed as None by the dispatcher), download_chunk returns
a dict carrying a status key, and any exception its body raises is
converted by its try/except into the error response with the exception's
message rather than propagating. -/
theorem c10_download_chunk_always_status (node : NodeState) (iv : Nat)
    (filename chunk_index : PyValue) :
    (dictGet (respDict (download_chunk node iv filename chunk_index)) "status").isSome = true ∧
    (∀ e : PyErr, download_chunk_body node iv filename chunk_index = .error e →
      download_chunk node iv filename chunk_index = .error e.message) := by
  constructor
  · cases h : download_chunk node iv filename chunk_index <;> simp [respDict, dictGet]
  · intro e he
    unfold download_chunk
    rw [he]

/-- C10 witnessed on the exception path: ghost.txt is still catalogued
but gone from disk, the body raises FileNotFoundError, and the response
is the error dict carrying its message. -/
theorem c10_status_witness :
    download_chunk nodeGone 0 (.pystr "ghost.txt") (.pyint 0) =
      .error (PyErr.message (.fileNotFoundError
        (String.append "[Errno 2] No such file or directory: " "./shared/ghost.txt"))) :=
  (c10_download_chunk_always_status nodeGone 0 (.pystr "ghost.txt") (.pyint 0)).2
    (.fileNotFoundError (String.append "[Errno 2] No such file or directory: " "./shared/ghost.txt"))
    (by rfl)
